import Mathlib

/-!
Shallow embedding of `src/lib/plugins/aws/deploy/lib/checkForChanges.js`:
the deployment-necessity evaluator and log-subscription reconciler of the
repository.  Remote responses (S3 listings, headObject results, Lambda
getFunction results, CloudWatchLogs describe/delete results) are passed in
as explicit data; the functions below mirror the JavaScript control flow on
that data.  Timestamps are modelled as `Nat` (milliseconds since the epoch,
so `new Date(0)` is `0`); JavaScript strings are Lean `String`s.
-/

namespace CheckForChanges

/-- JavaScript `String.prototype.split` with a single-character separator,
acting on a character list.  The result is always non-empty: a string with
no separator yields one segment, and `""` yields `[[]]`, as in JS. -/
def splitOnChar (sep : Char) : List Char → List (List Char)
  | [] => [[]]
  | c :: cs =>
    if c = sep then [] :: splitOnChar sep cs
    else
      match splitOnChar sep cs with
      | [] => [[c]]
      | seg :: rest => (c :: seg) :: rest

/-- JS `s.split(sep)` for a one-character separator, on `String`s. -/
def jsSplit (s : String) (sep : Char) : List String :=
  (splitOnChar sep s.data).map String.mk

/-- `getLogicalIdFromFilterName` from checkForChanges.js:
`const split = filterName.split('-'); return split[split.length - 2];`.
When the split has fewer than two segments the JS index is `-1` and the
result is `undefined`, modelled as `none`. -/
def getLogicalIdFromFilterName (filterName : String) : Option String :=
  let split := jsSplit filterName '-'
  if 2 ≤ split.length then split[split.length - 2]? else none

theorem splitOnChar_ne_nil (sep : Char) (l : List Char) : splitOnChar sep l ≠ [] := by
  cases l with
  | nil => simp [splitOnChar]
  | cons c cs =>
    simp only [splitOnChar]
    split
    · simp
    · cases h : splitOnChar sep cs <;> simp

theorem length_splitOnChar (sep : Char) (l : List Char) :
    (splitOnChar sep l).length = l.count sep + 1 := by
  induction l with
  | nil => simp [splitOnChar]
  | cons c cs ih =>
    simp only [splitOnChar]
    split
    · subst c
      simp [List.count_cons, ih]
    · cases h : splitOnChar sep cs with
      | nil => exact absurd h (splitOnChar_ne_nil sep cs)
      | cons seg rest =>
        rw [h] at ih
        simp only [List.length_cons] at ih ⊢
        rename_i hne
        simp [List.count_cons, Ne.symm hne, ih]

theorem length_jsSplit (s : String) (sep : Char) :
    (jsSplit s sep).length = s.data.count sep + 1 := by
  simp [jsSplit, length_splitOnChar]

/-- C9: for every filter name containing at least two hyphens,
`getLogicalIdFromFilterName` returns the second-to-last hyphen-delimited
segment (index 1 of the reversed segment list). -/
theorem C9_logical_id_is_second_to_last_segment (filterName : String)
    (h : 2 ≤ filterName.data.count '-') :
    getLogicalIdFromFilterName filterName = (jsSplit filterName '-').reverse[1]? := by
  have hlen : (jsSplit filterName '-').length = filterName.data.count '-' + 1 :=
    length_jsSplit filterName '-'
  have h3 : 3 ≤ (jsSplit filterName '-').length := by omega
  have h1 : 1 < (jsSplit filterName '-').length := by omega
  rw [getLogicalIdFromFilterName, List.getElem?_reverse h1]
  have : (jsSplit filterName '-').length - 1 - 1 = (jsSplit filterName '-').length - 2 := by
    omega
  rw [this, if_pos (by omega)]

/-- C9 witness: both example filter names from the spec yield "myFunc"; the
hyphen-count hypothesis is discharged concretely for the hyphenated stack
name. -/
theorem C9_witness :
    getLogicalIdFromFilterName "my-stack-myFunc-AB12CD" = some "myFunc" ∧
    getLogicalIdFromFilterName "mystack-myFunc-AB12CD" = some "myFunc" :=
  ⟨(C9_logical_id_is_second_to_last_segment "my-stack-myFunc-AB12CD" (by decide)).trans
      (by decide),
    by decide⟩

/-- JS `key.lastIndexOf(c)`: index of the last occurrence of `c`, `-1` if
absent. -/
def lastIndexOfChar (c : Char) (l : List Char) : Int :=
  match l.reverse.findIdx? (fun x => x == c) with
  | some i => (l.length : Int) - 1 - (i : Int)
  | none => -1

/-- JS `key.substring(0, key.lastIndexOf('/'))` — the directory component of
an S3 key (`substring` clamps the negative no-slash index to 0, giving ""). -/
def dirOf (key : String) : String :=
  String.mk (key.data.take (lastIndexOfChar '/' key.data).toNat)

/-- One entry of an S3 `listObjectsV2` result: `{Key, LastModified}`. -/
structure S3Obj where
  Key : String
  LastModified : Option Nat
deriving DecidableEq

/-- The descending-key comparison used by `_.orderBy(objects, ['Key'], ['desc'])`:
JS compares strings by code units, modelled as the lexicographic order on the
character lists. -/
def keyDesc (a b : S3Obj) : Prop := b.Key.data ≤ a.Key.data

instance : DecidableRel keyDesc :=
  fun a b => inferInstanceAs (Decidable (b.Key.data ≤ a.Key.data))

instance : IsTotal S3Obj keyDesc := ⟨fun a b => le_total b.Key.data a.Key.data⟩

instance : IsTrans S3Obj keyDesc := ⟨fun _ _ _ hab hbc => le_trans hbc hab⟩

/-- `getMostRecentObjects` from checkForChanges.js, applied to a successful
listing result: order the listed objects by key descending, take the
directory of the first (lexicographically greatest) key, and keep exactly
the objects in that directory.  An empty `Contents` yields `[]` (in the
source that case is the `else` branch of `result.Contents.length`; here the
sort of an empty list is empty, so the match covers it). -/
def getMostRecentObjects (contents : List S3Obj) : List S3Obj :=
  match List.insertionSort keyDesc contents with
  | [] => []
  | first :: rest =>
    (first :: rest).filter (fun obj => dirOf obj.Key == dirOf first.Key)

/-- C7: for a non-empty listing whose lexicographically greatest key is `k`,
`getMostRecentObjects` returns exactly (as a multiset) the listed objects
whose directory prefix equals the directory prefix of `k`; for an empty
listing it returns `[]`. -/
theorem C7_most_recent_objects_share_directory (contents : List S3Obj) (k : String)
    (hmem : k ∈ contents.map S3Obj.Key)
    (hmax : ∀ q ∈ contents.map S3Obj.Key, q.data ≤ k.data) :
    (getMostRecentObjects contents).Perm
        (contents.filter (fun obj => dirOf obj.Key == dirOf k)) ∧
    getMostRecentObjects [] = [] := by
  refine ⟨?_, rfl⟩
  cases h : List.insertionSort keyDesc contents with
  | nil =>
    have hp := List.perm_insertionSort keyDesc contents
    rw [h] at hp
    rw [hp.symm.eq_nil] at hmem
    simp at hmem
  | cons first rest =>
    have hp : (first :: rest).Perm contents := by
      have := List.perm_insertionSort keyDesc contents
      rwa [h] at this
    have hsorted : List.Sorted keyDesc (first :: rest) := by
      have := List.sorted_insertionSort keyDesc contents
      rwa [h] at this
    have hfirstmem : first ∈ contents := hp.subset (List.mem_cons_self first rest)
    have h1 : first.Key.data ≤ k.data := hmax _ (List.mem_map_of_mem S3Obj.Key hfirstmem)
    obtain ⟨o, ho, rfl⟩ := List.mem_map.mp hmem
    have ho' : o ∈ first :: rest := hp.mem_iff.mpr ho
    have h2 : o.Key.data ≤ first.Key.data := by
      rcases List.mem_cons.mp ho' with rfl | hr
      · exact le_refl _
      · exact List.rel_of_sorted_cons hsorted o hr
    have hkeq : first.Key.data = o.Key.data := le_antisymm h1 h2
    have hdir : dirOf first.Key = dirOf o.Key := by
      unfold dirOf
      rw [hkeq]
    simp only [getMostRecentObjects, h, hdir]
    exact hp.filter _

/-- C7 witness: a concrete three-object listing whose greatest key sits in
the directory "serverless/svc/dev/222"; the returned generation is exactly
the filter by that directory. -/
theorem C7_witness :
    (getMostRecentObjects
        [⟨"serverless/svc/dev/111/a.zip", some 1⟩,
         ⟨"serverless/svc/dev/222/b.zip", some 2⟩,
         ⟨"serverless/svc/dev/222/c.zip", some 3⟩]).Perm
      (List.filter (fun obj => dirOf obj.Key == dirOf "serverless/svc/dev/222/c.zip")
        [⟨"serverless/svc/dev/111/a.zip", some 1⟩,
         ⟨"serverless/svc/dev/222/b.zip", some 2⟩,
         ⟨"serverless/svc/dev/222/c.zip", some 3⟩]) :=
  (C7_most_recent_objects_share_directory _ "serverless/svc/dev/222/c.zip"
      (by decide) (by decide)).1

/-- An error surfaced by the listing step: either the distinguished
`ServerlessError` that checkForChanges.js constructs itself, or the original
provider rejection re-raised unchanged. -/
inductive FetchError where
  | serverlessError (message : String)
  | providerError (message : String)
deriving DecidableEq

/-- JS `s.includes(sub)`: `sub` occurs contiguously in `s`. -/
def strIncludes (s sub : String) : Bool := decide (sub.data <:+: s.data)

/-- The marker tested by the catch handler of `getMostRecentObjects`. -/
def bucketMissingMarker : String := "The specified bucket does not exist"

/-- The remediation message of the `ServerlessError` raised when the
deployment bucket is gone: the three fragments of the source, joined by
single spaces. -/
def bucketDoesNotExistMessage (bucket stackName : String) : String :=
  "The serverless deployment bucket \"" ++ bucket ++ "\" does not exist. " ++
    "Create it manually if you want to reuse the CloudFormation stack \"" ++ stackName ++
    "\", or delete the stack if it is no longer required."

/-- `getMostRecentObjects` together with its catch handler: a rejection whose
message does not include the missing-bucket marker is re-raised unchanged; the
missing-bucket rejection becomes the distinguished `ServerlessError`; a
successful listing is post-processed as in `getMostRecentObjects`. -/
def getMostRecentObjectsResult (listResult : Except String (List S3Obj))
    (bucket stackName : String) : Except FetchError (List S3Obj) :=
  match listResult with
  | .error reason =>
    if !(strIncludes reason bucketMissingMarker) then
      .error (.providerError reason)
    else
      .error (.serverlessError (bucketDoesNotExistMessage bucket stackName))
  | .ok result => .ok (getMostRecentObjects result)

/-- C8: a listing failure whose message signals a missing deployment bucket
is turned into the distinguished `ServerlessError` whose remediation message
names both the bucket and the CloudFormation stack; every other listing
failure propagates unchanged. -/
theorem C8_store_not_found_remediation (reason bucket stackName : String) :
    (strIncludes reason bucketMissingMarker = true →
      getMostRecentObjectsResult (Except.error reason) bucket stackName =
        Except.error (FetchError.serverlessError (bucketDoesNotExistMessage bucket stackName)) ∧
      strIncludes (bucketDoesNotExistMessage bucket stackName) bucket = true ∧
      strIncludes (bucketDoesNotExistMessage bucket stackName) stackName = true) ∧
    (strIncludes reason bucketMissingMarker = false →
      getMostRecentObjectsResult (Except.error reason) bucket stackName =
        Except.error (FetchError.providerError reason)) := by
  constructor
  · intro h
    refine ⟨by simp [getMostRecentObjectsResult, h], ?_, ?_⟩
    · rw [strIncludes, decide_eq_true_eq]
      refine ⟨"The serverless deployment bucket \"".data,
        ("\" does not exist. " ++
          "Create it manually if you want to reuse the CloudFormation stack \"" ++ stackName ++
          "\", or delete the stack if it is no longer required.").data, ?_⟩
      simp [bucketDoesNotExistMessage, List.append_assoc]
    · rw [strIncludes, decide_eq_true_eq]
      refine ⟨("The serverless deployment bucket \"" ++ bucket ++ "\" does not exist. " ++
          "Create it manually if you want to reuse the CloudFormation stack \"").data,
        "\", or delete the stack if it is no longer required.".data, ?_⟩
      simp [bucketDoesNotExistMessage, List.append_assoc]
  · intro h
    simp [getMostRecentObjectsResult, h]

/-- C8 witness: the missing-bucket rejection becomes the remediation error,
and an unrelated rejection is re-raised unchanged, at concrete inputs. -/
theorem C8_witness :
    getMostRecentObjectsResult (Except.error "The specified bucket does not exist")
        "deploy-bucket" "my-stack" =
      Except.error
        (FetchError.serverlessError (bucketDoesNotExistMessage "deploy-bucket" "my-stack")) ∧
    getMostRecentObjectsResult (Except.error "Access Denied") "deploy-bucket" "my-stack" =
      Except.error (FetchError.providerError "Access Denied") :=
  ⟨((C8_store_not_found_remediation "The specified bucket does not exist" "deploy-bucket"
        "my-stack").1 (by decide)).1,
    (C8_store_not_found_remediation "Access Denied" "deploy-bucket" "my-stack").2 (by decide)⟩

/-- The outcome of one `Lambda.getFunction` request: a success carrying
`Configuration.LastModified`, or a rejection carrying the optional
`providerError.statusCode`. -/
inductive FnFetch where
  | ok (lastModified : Nat)
  | err (statusCode : Option Nat)
deriving DecidableEq

/-- The per-function date of the `getFunction` promise chain: a success maps
to its last-modified date, every failure maps to `new Date(0)`. -/
def perFunctionDate : FnFetch → Nat
  | .ok d => d
  | .err _ => 0

/-- Whether a fetch failure satisfied
`err.providerError && err.providerError.statusCode === 403`. -/
def is403 : FnFetch → Bool
  | .err (some sc) => sc == 403
  | _ => false

/-- The reduce callback of `getFunctionsEarliestLastModifiedDate`:
`if (!currentMin || date < currentMin) return date; return currentMin;`
(a `Date` object is always truthy, so only `null` restarts the minimum). -/
def minDateStep (currentMin : Option Nat) (date : Nat) : Option Nat :=
  match currentMin with
  | none => some date
  | some m => if date < m then some date else some m

/-- What `getFunctionsEarliestLastModifiedDate` produces: the number of
operator warnings logged and the reduced minimum. -/
structure EarliestResult where
  warningCount : Nat
  earliest : Option Nat
deriving DecidableEq

/-- `getFunctionsEarliestLastModifiedDate` from checkForChanges.js: each
fetch outcome becomes a date (errors become the epoch); the 403 warning is
logged once, after the join, when any fetch was forbidden; the dates are
reduced by the minimum callback starting from `null`. -/
def getFunctionsEarliestLastModifiedDate (fetches : List FnFetch) : EarliestResult :=
  { warningCount := if fetches.any is403 then 1 else 0,
    earliest := (fetches.map perFunctionDate).foldl minDateStep none }

theorem minDateStep_some (a d : Nat) : minDateStep (some a) d = some (Nat.min a d) := by
  simp only [minDateStep, Nat.min_def]
  rcases Nat.lt_or_ge d a with h | h
  · rw [if_pos h, if_neg (by omega)]
  · rw [if_neg (by omega), if_pos (by omega)]

theorem foldl_minDateStep_some (l : List Nat) (a : Nat) :
    l.foldl minDateStep (some a) = some (l.foldl Nat.min a) := by
  induction l generalizing a with
  | nil => rfl
  | cons d l ih => rw [List.foldl_cons, minDateStep_some, ih, List.foldl_cons]

theorem foldl_min_le_init (l : List Nat) (a : Nat) : l.foldl Nat.min a ≤ a := by
  induction l generalizing a with
  | nil => exact Nat.le_refl a
  | cons d l ih => exact Nat.le_trans (ih (Nat.min a d)) (Nat.min_le_left a d)

theorem foldl_min_le_mem (l : List Nat) (a : Nat) : ∀ d ∈ l, l.foldl Nat.min a ≤ d := by
  induction l generalizing a with
  | nil => intro d hd; simp at hd
  | cons x l ih =>
    intro d hd
    rcases List.mem_cons.mp hd with rfl | hd'
    · exact Nat.le_trans (foldl_min_le_init l (Nat.min a d)) (Nat.min_le_right a d)
    · exact ih (Nat.min a x) d hd'

theorem foldl_min_mem_or (l : List Nat) (a : Nat) :
    l.foldl Nat.min a = a ∨ l.foldl Nat.min a ∈ l := by
  induction l generalizing a with
  | nil => exact Or.inl rfl
  | cons x l ih =>
    rw [List.foldl_cons]
    rcases ih (Nat.min a x) with h | h
    · rw [h]
      by_cases hax : a ≤ x
      · exact Or.inl (by simp [Nat.min_def, hax])
      · have hx : Nat.min a x = x := by simp [Nat.min_def, hax]
        rw [hx]
        exact Or.inr (List.mem_cons_self x l)
    · exact Or.inr (List.mem_cons_of_mem x h)

/-- C5: an individual `getFunction` failure never aborts the scan and is
substituted by the epoch; the warning is logged exactly once precisely when
some failure carried a 403 status; the result is the minimum of all
per-function dates and is `none` exactly for the empty function set. -/
theorem C5_earliest_function_modification (fetches : List FnFetch) :
    (∀ f ∈ fetches, ∀ sc, f = FnFetch.err sc → perFunctionDate f = 0) ∧
    ((getFunctionsEarliestLastModifiedDate fetches).warningCount = 1 ↔
      ∃ f ∈ fetches, is403 f = true) ∧
    ((getFunctionsEarliestLastModifiedDate fetches).warningCount = 1 ∨
      (getFunctionsEarliestLastModifiedDate fetches).warningCount = 0) ∧
    (fetches = [] → (getFunctionsEarliestLastModifiedDate fetches).earliest = none) ∧
    (fetches ≠ [] → ∃ e, (getFunctionsEarliestLastModifiedDate fetches).earliest = some e ∧
      e ∈ fetches.map perFunctionDate ∧ ∀ d ∈ fetches.map perFunctionDate, e ≤ d) := by
  refine ⟨?_, ?_, ?_, ?_, ?_⟩
  · intro f _ sc hsc
    subst hsc
    rfl
  · simp only [getFunctionsEarliestLastModifiedDate]
    rcases h : fetches.any is403 with _ | _
    · simpa [List.any_eq_true] using (List.any_eq_false.mp h)
    · simpa [List.any_eq_true] using (List.any_eq_true.mp h)
  · simp only [getFunctionsEarliestLastModifiedDate]
    split
    · exact Or.inl rfl
    · exact Or.inr rfl
  · intro h
    subst h
    rfl
  · intro h
    cases hf : fetches with
    | nil => exact absurd hf h
    | cons f fs =>
      refine ⟨(fs.map perFunctionDate).foldl Nat.min (perFunctionDate f), ?_, ?_, ?_⟩
      · simp only [getFunctionsEarliestLastModifiedDate, hf, List.map_cons, List.foldl_cons,
          minDateStep]
        exact foldl_minDateStep_some _ _
      · rw [List.map_cons]
        rcases foldl_min_mem_or (fs.map perFunctionDate) (perFunctionDate f) with h' | h'
        · rw [h']
          exact List.mem_cons_self _ _
        · exact List.mem_cons_of_mem _ h'
      · rw [List.map_cons]
        intro d hd
        rcases List.mem_cons.mp hd with rfl | hd'
        · exact foldl_min_le_init _ _
        · exact foldl_min_le_mem _ _ d hd'

/-- C5 witness: with one 403 failure among three functions the warning is
logged exactly once, and the failure forces the minimum down to the epoch. -/
theorem C5_witness :
    (getFunctionsEarliestLastModifiedDate
        [FnFetch.ok 5, FnFetch.err (some 403), FnFetch.ok 7]).warningCount = 1 ∧
    (getFunctionsEarliestLastModifiedDate
        [FnFetch.ok 5, FnFetch.err (some 403), FnFetch.ok 7]).earliest = some 0 := by
  have hthm := C5_earliest_function_modification
    [FnFetch.ok 5, FnFetch.err (some 403), FnFetch.ok 7]
  refine ⟨hthm.2.1.mpr ⟨FnFetch.err (some 403), by decide, by decide⟩, ?_⟩
  obtain ⟨e, he, -, hlb⟩ := hthm.2.2.2.2 (by decide)
  have he0 : e = 0 := Nat.le_zero.mp (hlb 0 (by decide))
  rw [he, he0]

/-- A `headObject` response as used by `checkIfDeploymentIsNecessary`:
its `LastModified` date and its user metadata map. -/
structure RemoteObject where
  LastModified : Option Nat
  Metadata : List (String × String)
deriving DecidableEq

/-- `object.Metadata.filesha256 || ''`: the recorded content hash, with a
missing key (undefined) or the empty string (both falsy) replaced by `''`. -/
def remoteHashOf (obj : RemoteObject) : String :=
  match obj.Metadata.lookup "filesha256" with
  | some v => if v = "" then "" else v
  | none => ""

/-- The comparison used for `Array.prototype.sort()` on hash strings: JS
compares strings by code units, modelled as the lexicographic order on the
character lists. -/
def hashLe (a b : String) : Prop := a.data ≤ b.data

instance : DecidableRel hashLe := fun a b => inferInstanceAs (Decidable (a.data ≤ b.data))

instance : IsTotal String hashLe := ⟨fun a b => le_total a.data b.data⟩

instance : IsTrans String hashLe := ⟨fun _ _ _ h1 h2 => le_trans h1 h2⟩

instance : IsAntisymm String hashLe := ⟨fun a b h1 h2 => by
  obtain ⟨da⟩ := a
  obtain ⟨db⟩ := b
  exact congrArg String.mk (le_antisymm h1 h2)⟩

/-- `hashes.sort()`. -/
def sortHashes (hashes : List String) : List String := List.insertionSort hashLe hashes

/-- `_.isEqual(remoteHashes.sort(), localHashes.sort())`: element-wise
equality of the two sorted hash arrays. -/
def areHashesEqual (remoteHashes localHashes : List String) : Bool :=
  sortHashes remoteHashes == sortHashes localHashes

/-- The predicate of
`objects.some((object) => object.LastModified && object.LastModified > funcLastModifiedDate)`:
a missing `LastModified` is falsy, and comparing a date against `null`
coerces `null` to the epoch. -/
def driftPred (funcLastModifiedDate : Option Nat) (obj : RemoteObject) : Bool :=
  match obj.LastModified, funcLastModifiedDate with
  | some d, some m => decide (m < d)
  | some d, none => decide (0 < d)
  | none, _ => false

/-- `changedAfterDeploy` of checkForChanges.js: some remote object was
modified strictly after the earliest function modification. -/
def changedAfterDeploy (objects : List RemoteObject)
    (funcLastModifiedDate : Option Nat) : Bool :=
  objects.any (driftPred funcLastModifiedDate)

/-- `checkIfDeploymentIsNecessary` from checkForChanges.js, as the update of
the `shouldNotDeploy` session flag.  The local fingerprint computation
(template canonicalisation and SHA-256 of each deduplicated zip file) is
environment input: the function receives the zip-file hashes and the
template hash already computed, and the source appends the template hash via
`localHashes.push(localCfHash)`. -/
def checkIfDeploymentIsNecessary (objects : List RemoteObject)
    (funcLastModifiedDate : Option Nat) (zipFileHashes : List String)
    (localCfHash : String) (shouldNotDeploy : Bool) : Bool :=
  if objects.isEmpty then shouldNotDeploy
  else
    let remoteHashes := objects.map remoteHashOf
    let localHashes := zipFileHashes ++ [localCfHash]
    if !(changedAfterDeploy objects funcLastModifiedDate) &&
        areHashesEqual remoteHashes localHashes then
      true
    else shouldNotDeploy

theorem sortHashes_perm (l : List String) : (sortHashes l).Perm l :=
  List.perm_insertionSort hashLe l

theorem areHashesEqual_iff_perm (r l : List String) :
    areHashesEqual r l = true ↔ r.Perm l := by
  constructor
  · intro h
    have heq : sortHashes r = sortHashes l := by simpa [areHashesEqual] using h
    have hr := (sortHashes_perm r).symm
    rw [heq] at hr
    exact hr.trans (sortHashes_perm l)
  · intro h
    have hs : sortHashes r = sortHashes l :=
      List.eq_of_perm_of_sorted
        ((sortHashes_perm r).trans (h.trans (sortHashes_perm l).symm))
        (List.sorted_insertionSort hashLe r) (List.sorted_insertionSort hashLe l)
    simp [areHashesEqual, hs]

theorem driftPred_false_iff (m : Nat) (obj : RemoteObject) :
    driftPred (some m) obj = false ↔ ∀ d, obj.LastModified = some d → d ≤ m := by
  cases hL : obj.LastModified with
  | none => simp [driftPred, hL]
  | some d =>
    simp only [driftPred, hL, decide_eq_false_iff_not, Nat.not_lt]
    constructor
    · intro h d' hd'
      obtain rfl := Option.some.inj hd'
      exact h
    · intro h
      exact h d rfl

theorem check_true_iff (objects : List RemoteObject) (f : Option Nat)
    (z : List String) (cf : String) (h : objects ≠ []) :
    checkIfDeploymentIsNecessary objects f z cf false = true ↔
      changedAfterDeploy objects f = false ∧
      areHashesEqual (objects.map remoteHashOf) (z ++ [cf]) = true := by
  have hne : objects.isEmpty = false := by
    cases objects with
    | nil => exact absurd rfl h
    | cons o os => rfl
  rcases hcad : changedAfterDeploy objects f with _ | _ <;>
    rcases heq : areHashesEqual (objects.map remoteHashOf) (z ++ [cf]) with _ | _ <;>
      simp [checkIfDeploymentIsNecessary, hne, hcad, heq]

/-- C1: with `force: false` and a non-empty remote object list, the verdict
`shouldNotDeploy` becomes true exactly when no remote object was modified
strictly after the minimum function last-modified date (Gate A) and the
remote hashes are a permutation of the local hashes — all artifact hashes
plus the template hash (Gate B); with an empty remote object list the
verdict stays false. -/
theorem C1_skip_verdict (objects : List RemoteObject) (funcMin : Nat)
    (zipFileHashes : List String) (localCfHash : String) :
    (objects = [] →
      checkIfDeploymentIsNecessary objects (some funcMin) zipFileHashes localCfHash
        false = false) ∧
    (objects ≠ [] →
      (checkIfDeploymentIsNecessary objects (some funcMin) zipFileHashes localCfHash
          false = true ↔
        (∀ obj ∈ objects, ∀ d, obj.LastModified = some d → d ≤ funcMin) ∧
        (objects.map remoteHashOf).Perm (zipFileHashes ++ [localCfHash]))) := by
  constructor
  · intro h
    subst h
    rfl
  · intro h
    rw [check_true_iff objects (some funcMin) zipFileHashes localCfHash h]
    rw [changedAfterDeploy, List.any_eq_false, areHashesEqual_iff_perm]
    constructor
    · rintro ⟨h1, h2⟩
      exact ⟨fun obj hobj => (driftPred_false_iff funcMin obj).mp
        (Bool.not_eq_true _ ▸ Bool.of_not_eq_true (h1 obj hobj)), h2⟩
    · rintro ⟨h1, h2⟩
      refine ⟨fun obj hobj => ?_, h2⟩
      rw [(driftPred_false_iff funcMin obj).mpr (h1 obj hobj)]
      simp

/-- C1 witness: two remote objects uploaded before the earliest function
update whose hashes match the local artifact hash plus template hash, so
the deployment is skipped. -/
theorem C1_witness :
    checkIfDeploymentIsNecessary
        [⟨some 3, [("filesha256", "zzz")]⟩, ⟨some 2, [("filesha256", "ccc")]⟩]
        (some 5) ["zzz"] "ccc" false = true := by
  refine ((C1_skip_verdict _ 5 ["zzz"] "ccc").2 (by simp)).mpr ⟨?_, by decide⟩
  intro obj hobj d hd
  rcases List.mem_cons.mp hobj with rfl | hobj'
  · obtain rfl : (3 : Nat) = d := by simpa using hd
    omega
  · rcases List.mem_cons.mp hobj' with rfl | h''
    · obtain rfl : (2 : Nat) = d := by simpa using hd
      omega
    · simp at h''

/-- C3: the hash-equality gate is order-insensitive and
duplicate-count-sensitive — it passes exactly when the remote hash list is a
permutation of the local hash list. -/
theorem C3_hash_gate_is_multiset_equality (remoteHashes localHashes : List String) :
    areHashesEqual remoteHashes localHashes = true ↔ remoteHashes.Perm localHashes :=
  areHashesEqual_iff_perm remoteHashes localHashes

/-- C10: a remote object whose metadata lacks `filesha256` (or maps it to a
falsy value) contributes the empty string as its remote hash, so whenever
the verdict is reached it can only have matched a local hash equal to the
empty string. -/
theorem C10_missing_filesha256_yields_empty_hash (obj : RemoteObject)
    (objects : List RemoteObject) (funcLastModifiedDate : Option Nat)
    (zipFileHashes : List String) (localCfHash : String)
    (hmeta : obj.Metadata.lookup "filesha256" = none ∨
      obj.Metadata.lookup "filesha256" = some "")
    (hmem : obj ∈ objects)
    (hskip : checkIfDeploymentIsNecessary objects funcLastModifiedDate zipFileHashes
        localCfHash false = true) :
    remoteHashOf obj = "" ∧ "" ∈ zipFileHashes ++ [localCfHash] := by
  have hhash : remoteHashOf obj = "" := by
    rcases hmeta with h | h <;> simp [remoteHashOf, h]
  refine ⟨hhash, ?_⟩
  have hiff := (check_true_iff objects funcLastModifiedDate zipFileHashes localCfHash
    (List.ne_nil_of_mem hmem)).mp hskip
  have hperm := (areHashesEqual_iff_perm _ _).mp hiff.2
  have hm : "" ∈ objects.map remoteHashOf := by
    rw [← hhash]
    exact List.mem_map_of_mem remoteHashOf hmem
  exact hperm.mem_iff.mp hm

/-- C10 witness: a single remote object with no metadata map entries matches
only a local hash list containing the empty string. -/
theorem C10_witness :
    remoteHashOf ⟨some 0, []⟩ = "" ∧ "" ∈ ([] : List String) ++ [""] :=
  C10_missing_filesha256_yields_empty_hash ⟨some 0, []⟩ [⟨some 0, []⟩] (some 5) [] ""
    (Or.inl rfl) (by decide) (by decide)

/-- `getObjectMetadata`: one `headObject` request per listed object, all
joined; the responses are environment input, supplied as a function of the
object key. -/
def getObjectMetadata (objects : List S3Obj) (headResp : String → RemoteObject) :
    List RemoteObject :=
  if objects.isEmpty then [] else objects.map (fun obj => headResp obj.Key)

/-- What one `checkForChanges` run did: the final session flag and which
steps executed. -/
structure CheckOutcome where
  shouldNotDeploy : Bool
  listedObjects : Bool
  fetchedMetadata : Bool
  computedHashes : Bool
  evaluated : Bool
  reconcilerRan : Bool
deriving DecidableEq

/-- `checkForChanges` from checkForChanges.js: reset `shouldNotDeploy` to
false; with `options.force` run only the subscription-filter reconciler;
otherwise list the most recent objects, fetch their metadata and the
earliest function modification, evaluate necessity, and run the reconciler
exactly when the verdict left deployment required.  Hashes are computed
inside the evaluation only when the object list is non-empty. -/
def checkForChanges (force : Bool) (contents : List S3Obj)
    (headResp : String → RemoteObject) (fetches : List FnFetch)
    (zipFileHashes : List String) (localCfHash : String) : CheckOutcome :=
  if force then
    { shouldNotDeploy := false, listedObjects := false, fetchedMetadata := false,
      computedHashes := false, evaluated := false, reconcilerRan := true }
  else
    let objs := getMostRecentObjects contents
    let objMetadata := getObjectMetadata objs headResp
    let lastModifiedDate := (getFunctionsEarliestLastModifiedDate fetches).earliest
    let verdict := checkIfDeploymentIsNecessary objMetadata lastModifiedDate
      zipFileHashes localCfHash false
    { shouldNotDeploy := verdict, listedObjects := true, fetchedMetadata := true,
      computedHashes := !objMetadata.isEmpty, evaluated := true,
      reconcilerRan := !verdict }

/-- C4: with `force: true` the flag stays false, no listing, metadata fetch,
hash computation or necessity evaluation happens, and the reconciler still
runs; with `force: false` the evaluation runs and the reconciler runs
exactly when the evaluated flag is still false. -/
theorem C4_force_bypasses_evaluation (contents : List S3Obj)
    (headResp : String → RemoteObject) (fetches : List FnFetch)
    (zipFileHashes : List String) (localCfHash : String) :
    checkForChanges true contents headResp fetches zipFileHashes localCfHash =
      { shouldNotDeploy := false, listedObjects := false, fetchedMetadata := false,
        computedHashes := false, evaluated := false, reconcilerRan := true } ∧
    ((checkForChanges false contents headResp fetches zipFileHashes
        localCfHash).reconcilerRan =
      !(checkForChanges false contents headResp fetches zipFileHashes
        localCfHash).shouldNotDeploy) ∧
    (checkForChanges false contents headResp fetches zipFileHashes
        localCfHash).evaluated = true :=
  ⟨rfl, rfl, rfl⟩

/-- One existing subscription filter of a log group, as returned by
`describeSubscriptionFilters`. -/
structure SubscriptionFilter where
  filterName : String
  destinationArn : String
deriving DecidableEq

/-- A provider mutation issued by the reconciler. -/
inductive ReconcileAction where
  | delete (logGroupName filterName : String)
deriving DecidableEq

/-- The parameter record passed to `fixLogGroupSubscriptionFilters`. -/
structure FixParams where
  accountId : String
  logGroupName : String
  functionName : String
  functionObjName : String
  region : String
  partition : String
  logSubscriptionSerialNumber : Nat

/-- The replacement destination ARN this deployment will create:
`arn:{partition}:lambda:{region}:{accountId}:function:{functionObj.name}`. -/
def newDestinationArn (p : FixParams) : String :=
  "arn:" ++ p.partition ++ ":lambda:" ++ p.region ++ ":" ++ p.accountId ++
    ":function:" ++ p.functionObjName

/-- The promise chain of `fixLogGroupSubscriptionFilters` before its trailing
catch: on the describe response, inspect `subscriptionFilters[0]`; if absent
or already matching both the expected destination ARN and the expected
logical id (`naming` is the collaborator
`provider.naming.getCloudWatchLogLogicalId`), do nothing; otherwise issue
the delete, whose provider outcome `deleteResult` becomes the chain's
resolution.  The first component lists the delete calls issued. -/
def fixChain (naming : String → Nat → String)
    (describeResult : Except String (List SubscriptionFilter))
    (deleteResult : Except String Unit) (p : FixParams) :
    List ReconcileAction × Except String Unit :=
  match describeResult with
  | .error e => ([], .error e)
  | .ok filters =>
    match filters.head? with
    | none => ([], .ok ())
    | some subscriptionFilter =>
      if subscriptionFilter.destinationArn == newDestinationArn p &&
          getLogicalIdFromFilterName subscriptionFilter.filterName ==
            some (naming p.functionName p.logSubscriptionSerialNumber) then
        ([], .ok ())
      else
        ([ReconcileAction.delete p.logGroupName subscriptionFilter.filterName],
          deleteResult)

/-- The trailing `.catch(() => undefined)` of the chain. -/
def jsCatchAll (r : Except String Unit) : Except String Unit :=
  match r with
  | .error _ => .ok ()
  | .ok v => .ok v

/-- `fixLogGroupSubscriptionFilters` from checkForChanges.js: the chain with
the trailing catch attached to its end. -/
def fixLogGroupSubscriptionFilters (naming : String → Nat → String)
    (describeResult : Except String (List SubscriptionFilter))
    (deleteResult : Except String Unit) (p : FixParams) :
    List ReconcileAction × Except String Unit :=
  let r := fixChain naming describeResult deleteResult p
  (r.1, jsCatchAll r.2)

/-- C6: no delete is issued when the describe call fails or finds no filter,
or when the existing filter's destination ARN and derived logical id both
match what this deployment will produce; otherwise exactly one delete is
issued, for that log group and that filter name. -/
theorem C6_reconcile_delete_decision (naming : String → Nat → String)
    (describeResult : Except String (List SubscriptionFilter))
    (deleteResult : Except String Unit) (p : FixParams) :
    (∀ e, describeResult = Except.error e →
      (fixLogGroupSubscriptionFilters naming describeResult deleteResult p).1 = []) ∧
    (describeResult = Except.ok [] →
      (fixLogGroupSubscriptionFilters naming describeResult deleteResult p).1 = []) ∧
    (∀ sf rest, describeResult = Except.ok (sf :: rest) →
      ((sf.destinationArn = newDestinationArn p ∧
          getLogicalIdFromFilterName sf.filterName =
            some (naming p.functionName p.logSubscriptionSerialNumber)) →
        (fixLogGroupSubscriptionFilters naming describeResult deleteResult p).1 = []) ∧
      (¬(sf.destinationArn = newDestinationArn p ∧
          getLogicalIdFromFilterName sf.filterName =
            some (naming p.functionName p.logSubscriptionSerialNumber)) →
        (fixLogGroupSubscriptionFilters naming describeResult deleteResult p).1 =
          [ReconcileAction.delete p.logGroupName sf.filterName])) := by
  refine ⟨?_, ?_, ?_⟩
  · intro e he
    subst he
    rfl
  · intro he
    subst he
    rfl
  · intro sf rest he
    subst he
    constructor
    · rintro ⟨h1, h2⟩
      simp [fixLogGroupSubscriptionFilters, fixChain, h1, h2]
    · intro hn
      by_cases ha : sf.destinationArn = newDestinationArn p
      · by_cases hb : getLogicalIdFromFilterName sf.filterName =
            some (naming p.functionName p.logSubscriptionSerialNumber)
        · exact absurd ⟨ha, hb⟩ hn
        · simp [fixLogGroupSubscriptionFilters, fixChain, ha, hb]
      · simp [fixLogGroupSubscriptionFilters, fixChain, ha]

/-- C6 witness: a filter whose destination ARN differs from the expected one
triggers exactly one delete for its log group and filter name. -/
theorem C6_witness :
    (fixLogGroupSubscriptionFilters (fun n _ => n)
        (Except.ok [⟨"stack-other-XYZ", "arn:aws:lambda:us-east-1:1:function:g"⟩])
        (Except.ok ()) ⟨"1", "lg", "fn", "f", "us-east-1", "aws", 1⟩).1 =
      [ReconcileAction.delete "lg" "stack-other-XYZ"] :=
  ((C6_reconcile_delete_decision (fun n _ => n) _ (Except.ok ())
      ⟨"1", "lg", "fn", "f", "us-east-1", "aws", 1⟩).2.2
    ⟨"stack-other-XYZ", "arn:aws:lambda:us-east-1:1:function:g"⟩ [] rfl).2 (by decide)

/-- C2: the trailing catch of `fixLogGroupSubscriptionFilters` also swallows
a failing `deleteSubscriptionFilter` call: at a concrete input the delete is
issued and rejects, the chain before the catch rejects, yet the function
resolves successfully — the deletion failure does not propagate. -/
theorem C2_delete_error_swallowed :
    (fixChain (fun n _ => n)
        (Except.ok [⟨"stack-other-XYZ", "arn:aws:lambda:us-east-1:1:function:g"⟩])
        (Except.error "AccessDenied") ⟨"1", "lg", "fn", "f", "us-east-1", "aws", 1⟩) =
      ([ReconcileAction.delete "lg" "stack-other-XYZ"], Except.error "AccessDenied") ∧
    (fixLogGroupSubscriptionFilters (fun n _ => n)
        (Except.ok [⟨"stack-other-XYZ", "arn:aws:lambda:us-east-1:1:function:g"⟩])
        (Except.error "AccessDenied") ⟨"1", "lg", "fn", "f", "us-east-1", "aws", 1⟩) =
      ([ReconcileAction.delete "lg" "stack-other-XYZ"], Except.ok ()) :=
  ⟨rfl, rfl⟩

end CheckForChanges
